import Mathlib

/-!
Verification of the Kinostar retrieval–caching–aggregation pipeline.

Shallow embedding of `src/kinostar/cache.py`, `src/kinostar/config.py` and
`src/kinostar/app.py`.  Python dicts (the cache directory, the per-theater
movie maps) are modelled as insertion-ordered association lists; the
filesystem and the clock are explicit arguments; Python code that can raise
an uncaught exception is modelled with `Except`.
-/

namespace Kinostar

/-! ### Association-list helpers (Python dicts / the cache directory) -/

/-- Dict lookup: `d.get(key)` on an insertion-ordered association list. -/
def lookupA {β : Type} : List (String × β) → String → Option β
  | [], _ => none
  | (k, v) :: rest, key => if k = key then some v else lookupA rest key

/-- Removal of a key (`Path.unlink` on the cache directory). -/
def removeA {β : Type} : List (String × β) → String → List (String × β)
  | [], _ => []
  | (k, v) :: rest, key =>
    if k = key then removeA rest key else (k, v) :: removeA rest key

/-- Dict write `d[key] = v`: replaces in place when the key exists, otherwise
appends at the end (insertion order), like a Python dict / a file write. -/
def setA {β : Type} : List (String × β) → String → β → List (String × β)
  | [], key, v => [(key, v)]
  | (k, w) :: rest, key, v =>
    if k = key then (key, v) :: rest else (k, w) :: setA rest key v

/-- `defaultdict(list)` append: `d[key].append(v)`. -/
def appendA {β : Type} : List (String × List β) → String → β → List (String × List β)
  | [], key, v => [(key, [v])]
  | (k, l) :: rest, key, v =>
    if k = key then (k, l ++ [v]) :: rest else (k, l) :: appendA rest key v

theorem lookupA_removeA_self {β : Type} (l : List (String × β)) (key : String) :
    lookupA (removeA l key) key = none := by
  induction l with
  | nil => rfl
  | cons hd tl ih =>
    obtain ⟨k, v⟩ := hd
    by_cases h : k = key
    · simpa [removeA, h] using ih
    · simp [removeA, lookupA, h, ih]

theorem lookupA_setA_self {β : Type} (l : List (String × β)) (key : String) (v : β) :
    lookupA (setA l key v) key = some v := by
  induction l with
  | nil => simp [setA, lookupA]
  | cons hd tl ih =>
    obtain ⟨k, w⟩ := hd
    by_cases h : k = key
    · simp [setA, lookupA, h]
    · simp [setA, lookupA, h, ih]

theorem lookupA_setA_of_ne {β : Type} (l : List (String × β)) (key key₂ : String) (v : β)
    (h : key ≠ key₂) : lookupA (setA l key v) key₂ = lookupA l key₂ := by
  induction l with
  | nil => simp [setA, lookupA, h]
  | cons hd tl ih =>
    obtain ⟨k, w⟩ := hd
    by_cases hk : k = key
    · subst hk
      simp [setA, lookupA, h]
    · simp [setA, lookupA, hk, ih]

/-! ### Cache Store (`cache.py`) -/

/-- The `CACHE_DURATION` class constant: 3600 seconds. -/
def CACHE_DURATION : Int := 3600

/-- Parsed JSON-object content of a cache file as `Cache.get` reads it:
`cached_data.get("timestamp", 0)` and `cached_data.get("data")` make both keys
optional.  Timestamps are integer epoch seconds (JSON objects carrying a
non-numeric timestamp are outside the model). -/
structure CachedData (α : Type) where
  timestamp : Option Int
  data : Option α
deriving DecidableEq

/-- What a cache file can hold, as seen by `Cache.get`:
`parsed cd` is a readable file whose JSON decodes to an object;
`nonObject` is a readable file whose JSON decodes to something that is not an
object (a list, a string, a number, ...), on which `cached_data.get` raises an
uncaught `AttributeError`;
`corrupt` is a file that is unreadable (`OSError`) or fails JSON decoding
(`json.JSONDecodeError`). -/
inductive FileContent (α : Type) where
  | parsed (cd : CachedData α)
  | nonObject
  | corrupt
deriving DecidableEq

/-- The cache directory: file name ↦ file content. -/
abbrev Fs (α : Type) := List (String × FileContent α)

/-- `Cache._get_cache_key`: the SHA-256 hex digest of
`f"{prefix}:{':'.join(str(arg) for arg in args)}"`.  The digest is modelled as
an injective encoding, i.e. the key is the hashed string itself; `args` are
the string forms of the arguments. -/
def get_cache_key (pre : String) (args : List String) : String :=
  pre ++ ":" ++ String.intercalate ":" args

/-- `Cache._get_cache_path`: `cache_dir / f"{cache_key}.json"` (the constant
directory component is omitted). -/
def get_cache_path (cache_key : String) : String :=
  cache_key ++ ".json"

/-- `Cache.get`.  The directory `fs` and the clock `now` are explicit; the
result is `.error` when the Python code raises an uncaught exception
(`cached_data.get` on a non-object), otherwise `.ok (payload?, fs₂)` with
`fs₂` the directory after any `unlink`. -/
def Cache.get {α : Type} (fs : Fs α) (now : Int) (pre : String) (args : List String) :
    Except String (Option α × Fs α) :=
  let cache_path := get_cache_path (get_cache_key pre args)
  match lookupA fs cache_path with
  | none => .ok (none, fs)
  | some .corrupt => .ok (none, removeA fs cache_path)
  | some .nonObject => .error "AttributeError"
  | some (.parsed cd) =>
    let timestamp := cd.timestamp.getD 0
    if now - timestamp > CACHE_DURATION then
      .ok (none, removeA fs cache_path)
    else
      .ok (cd.data, fs)

/-- `Cache.set`: writes `{timestamp: now, data: payload}`, swallowing write
failures (`except OSError: pass`); `writeOk = false` models a failing write,
in which case the directory is unchanged. -/
def Cache.set {α : Type} (fs : Fs α) (now : Int) (pre : String) (data : α)
    (args : List String) (writeOk : Bool) : Fs α :=
  let cache_path := get_cache_path (get_cache_key pre args)
  if writeOk then setA fs cache_path (.parsed ⟨some now, some data⟩) else fs

/-! ### Cache claims -/

/-- C1: a cache entry whose stored timestamp is more than the TTL (3600 s) in
the past at the time of the call is never returned: `Cache.get` returns absent
(not the stored payload), deletes the backing file, and every subsequent
`Cache.get` on the same (namespace, key_parts), at any later time, also
returns absent and leaves the directory unchanged, until a new `set`. -/
theorem cache_expired_entry_gone {α : Type} (fs : Fs α) (now ts : Int)
    (cd : CachedData α) (pre : String) (args : List String)
    (hfile : lookupA fs (get_cache_path (get_cache_key pre args)) = some (.parsed cd))
    (hts : cd.timestamp = some ts)
    (hold : now - ts > CACHE_DURATION) :
    Cache.get fs now pre args =
      .ok (none, removeA fs (get_cache_path (get_cache_key pre args))) ∧
    lookupA (removeA fs (get_cache_path (get_cache_key pre args)))
      (get_cache_path (get_cache_key pre args)) = none ∧
    ∀ now₂ : Int,
      Cache.get (removeA fs (get_cache_path (get_cache_key pre args))) now₂ pre args =
        .ok (none, removeA fs (get_cache_path (get_cache_key pre args))) := by
  refine ⟨?_, lookupA_removeA_self fs _, ?_⟩
  · simp only [Cache.get, hfile, hts, Option.getD_some]
    rw [if_pos hold]
  · intro now₂
    simp only [Cache.get, lookupA_removeA_self]

/-- A concrete one-file cache directory holding an entry stored at time 1000. -/
def expiredFsExample : Fs Nat :=
  [(get_cache_path (get_cache_key "showtimes" ["3625"]),
    .parsed ⟨some 1000, some 42⟩)]

/-- Witness for C1 at a concrete expired entry. -/
theorem cache_expired_entry_gone_witness :
    Cache.get expiredFsExample 5000 "showtimes" ["3625"] =
      .ok (none, removeA expiredFsExample
        (get_cache_path (get_cache_key "showtimes" ["3625"]))) ∧
    lookupA (removeA expiredFsExample
        (get_cache_path (get_cache_key "showtimes" ["3625"])))
      (get_cache_path (get_cache_key "showtimes" ["3625"])) = none ∧
    ∀ now₂ : Int,
      Cache.get (removeA expiredFsExample
          (get_cache_path (get_cache_key "showtimes" ["3625"]))) now₂ "showtimes" ["3625"] =
        .ok (none, removeA expiredFsExample
          (get_cache_path (get_cache_key "showtimes" ["3625"]))) :=
  cache_expired_entry_gone expiredFsExample 5000 1000 ⟨some 1000, some 42⟩
    "showtimes" ["3625"] rfl rfl (by decide)

/-- C8: `set` immediately followed by `get` on the same (namespace, key_parts),
within the TTL and with the write succeeding, returns the stored payload
unchanged. -/
theorem cache_set_get_roundtrip {α : Type} (fs : Fs α) (t₁ t₂ : Int) (pre : String)
    (payload : α) (args : List String)
    (h : t₂ - t₁ ≤ CACHE_DURATION) :
    Cache.get (Cache.set fs t₁ pre payload args true) t₂ pre args =
      .ok (some payload, Cache.set fs t₁ pre payload args true) := by
  simp only [Cache.get, Cache.set, if_pos trivial, lookupA_setA_self, Option.getD_some]
  rw [if_neg (by omega)]

/-- Witness for C8: a concrete round-trip. -/
theorem cache_set_get_roundtrip_witness :
    Cache.get (Cache.set ([] : Fs Nat) 100 "showtimes" 7 ["3625"] true)
        200 "showtimes" ["3625"] =
      .ok (some 7, Cache.set ([] : Fs Nat) 100 "showtimes" 7 ["3625"] true) :=
  cache_set_get_roundtrip [] 100 200 "showtimes" 7 ["3625"] (by decide)

/-- C9 counterexample: a readable cache file whose content is valid JSON but
not an object (e.g. the file holds `[1, 2]`) makes `Cache.get` raise an
uncaught `AttributeError` (`cached_data.get` does not exist on a list) instead
of returning absent: only `json.JSONDecodeError` and `OSError` are caught. -/
theorem cache_get_nonobject_raises :
    Cache.get ([(get_cache_path (get_cache_key "showtimes" ["3625"]),
        FileContent.nonObject)] : Fs Nat)
        0 "showtimes" ["3625"] = .error "AttributeError" := by
  rfl

/-- C9 (amended): `Cache.get` on a key never written returns absent without
raising and leaves the directory unchanged; `Cache.get` on a key whose backing
file is unreadable (`OSError`) or fails JSON decoding returns absent without
raising and deletes the file.  (A readable file holding valid JSON that is not
an object instead raises, see the counterexample.) -/
theorem cache_get_missing_or_corrupt {α : Type} (fs : Fs α) (now : Int)
    (pre : String) (args : List String) :
    (lookupA fs (get_cache_path (get_cache_key pre args)) = none →
      Cache.get fs now pre args = .ok (none, fs)) ∧
    (lookupA fs (get_cache_path (get_cache_key pre args)) = some .corrupt →
      Cache.get fs now pre args =
        .ok (none, removeA fs (get_cache_path (get_cache_key pre args))) ∧
      lookupA (removeA fs (get_cache_path (get_cache_key pre args)))
        (get_cache_path (get_cache_key pre args)) = none) := by
  constructor
  · intro hmiss
    simp only [Cache.get, hmiss]
  · intro hcorrupt
    refine ⟨?_, lookupA_removeA_self fs _⟩
    simp only [Cache.get, hcorrupt]

/-- A concrete one-file cache directory holding an unreadable/undecodable file. -/
def corruptFsExample : Fs Nat :=
  [(get_cache_path (get_cache_key "showtimes" ["3625"]), .corrupt)]

/-- Witness for C9 (amended): a never-written key and a corrupted file. -/
theorem cache_get_missing_or_corrupt_witness :
    Cache.get ([] : Fs Nat) 0 "showtimes" ["3625"] = .ok (none, []) ∧
    (Cache.get corruptFsExample 0 "showtimes" ["3625"] =
      .ok (none, removeA corruptFsExample
        (get_cache_path (get_cache_key "showtimes" ["3625"]))) ∧
    lookupA (removeA corruptFsExample
        (get_cache_path (get_cache_key "showtimes" ["3625"])))
      (get_cache_path (get_cache_key "showtimes" ["3625"])) = none) :=
  ⟨(cache_get_missing_or_corrupt ([] : Fs Nat) 0 "showtimes" ["3625"]).1 rfl,
   (cache_get_missing_or_corrupt corruptFsExample 0 "showtimes" ["3625"]).2 rfl⟩

/-- C10 counterexample: the colon-joined key data is ambiguous, so the two
distinct (namespace, key_parts) tuples `("a", ["b:c"])` and `("a:b", ["c"])`
derive the same cache key (both hash the string `"a:b:c"`), and a payload
stored under the first tuple is retrieved by a `get` under the second — two
distinct tuples collide to the same retrievable value. -/
theorem cache_key_collision :
    (("a", ["b:c"]) : String × List String) ≠ ("a:b", ["c"]) ∧
    get_cache_key "a" ["b:c"] = get_cache_key "a:b" ["c"] ∧
    Cache.get (Cache.set ([] : Fs Nat) 0 "a" 7 ["b:c"] true) 0 "a:b" ["c"] =
      .ok (some 7, Cache.set ([] : Fs Nat) 0 "a" 7 ["b:c"] true) := by
  refine ⟨by decide, rfl, rfl⟩

/-- C10 (amended): the key derivation is a deterministic function of the
(namespace, key_parts) tuple, and two tuples derive the same key exactly when
their colon-joined encodings coincide; in particular tuples whose encodings
differ never collide to the same retrievable value — a payload stored under
one is invisible to a `get` under the other. -/
theorem cache_key_no_collision_of_ne {α : Type} (p q : String) (a b : List String)
    (now now₂ : Int) (v : α)
    (hne : p ++ ":" ++ String.intercalate ":" a ≠ q ++ ":" ++ String.intercalate ":" b) :
    get_cache_key p a ≠ get_cache_key q b ∧
    Cache.get (Cache.set ([] : Fs α) now p v a true) now₂ q b =
      .ok (none, Cache.set ([] : Fs α) now p v a true) := by
  have hkey : get_cache_key p a ≠ get_cache_key q b := hne
  refine ⟨hkey, ?_⟩
  have hpath : get_cache_path (get_cache_key p a) ≠ get_cache_path (get_cache_key q b) := by
    intro h
    apply hkey
    have hdata : (get_cache_key p a).data ++ ".json".data =
        (get_cache_key q b).data ++ ".json".data := congrArg String.data h
    exact congrArg String.mk (List.append_cancel_right hdata)
  simp only [Cache.get, Cache.set, if_pos trivial]
  rw [lookupA_setA_of_ne _ _ _ _ hpath]
  rfl

/-- Witness for C10 (amended) at two concrete non-ambiguous tuples. -/
theorem cache_key_no_collision_of_ne_witness :
    get_cache_key "showtimes" ["1"] ≠ get_cache_key "showtimes" ["2"] ∧
    Cache.get (Cache.set ([] : Fs Nat) 0 "showtimes" 7 ["1"] true) 0 "showtimes" ["2"] =
      .ok (none, Cache.set ([] : Fs Nat) 0 "showtimes" 7 ["1"] true) :=
  cache_key_no_collision_of_ne "showtimes" "showtimes" ["1"] ["2"] 0 0 7 (by decide)

/-! ### Configuration boundary (`config.py`) -/

/-- A configured theater (`config.Theater`).  The compiled `filter_regex`
(`re.compile(filter)` when a filter string is set, else `None`) is modelled as
the pattern's search predicate: `p movie_name = true` iff
`filter_regex.search(movie_name)` finds a match somewhere in the name. -/
structure Theater where
  name : String
  cinema_id : Int
  default : Bool
  filter_regex : Option (String → Bool)

/-- The application configuration (`config.Config`); `global_filter_regex` is
modelled like `Theater.filter_regex`. -/
structure Config where
  theaters : List Theater
  global_filter_regex : Option (String → Bool)

/-- `Config.should_filter_movie`: a movie is filtered out when the global
pattern or the given theater's own pattern matches the name. -/
def Config.should_filter_movie (c : Config) (movie_name : String) (theater : Theater) : Bool :=
  if c.global_filter_regex.elim false (fun p => p movie_name) then true
  else if theater.filter_regex.elim false (fun p => p movie_name) then true
  else false

/-! ### Pipeline data model (`app.py`) -/

/-- A special-showing tag on one show. -/
structure Flag where
  code : String
  name : String
deriving DecidableEq

/-- One record of the `shows` list.  Fields read by subscript in the source
(`show["name"]`, `show["duration"]`, `show["date"]`, `show["time"]`,
`show["flags"]`) are mandatory; `movieId` and `released` are read with `.get`,
hence optional.  `movieId` holds the string form `str(value)`. -/
structure ShowRecord where
  name : String
  duration : Int
  date : String
  time : String
  flags : List Flag
  movieId : Option String
  released : Option String
deriving DecidableEq

/-- One entry of the `movies` detail lookup.  The pipeline only reads
`released`; the remaining key/values are carried unchanged in `extra`. -/
structure MovieDetails where
  released : Option String
  extra : List (String × String)
deriving DecidableEq

/-- `RawTheaterResponse`: the JSON payload stored for one theater.
`shows = none` models a payload without a `"shows"` key (which subsumes the
empty dict); `error` models the optional `"error"` key; `movies` models
`payload.get("movies", {})` with the default folded into the empty list. -/
structure RawTheaterResponse where
  shows : Option (List ShowRecord)
  error : Option String
  movies : List (String × MovieDetails)
deriving DecidableEq

/-- The error placeholder built by `load_showtimes_for_theater`'s `except`
clause: `{"shows": [], "error": str(e), "movies": {}}`. -/
def errorPlaceholder (msg : String) : RawTheaterResponse :=
  { shows := some [], error := some msg, movies := [] }

/-- Python's `a or b` for an optional string `a`: `None` and `""` are falsy. -/
def pyOr (a : Option String) (b : String) : String :=
  match a with
  | some s => if s = "" then b else s
  | none => b

/-- The per-movie aggregate dict built by `_process_theater_shows`. -/
structure MovieAgg where
  name : String
  duration : Int
  showtimes_by_date : List (String × List ShowRecord)
  total_showtimes : Nat
  released : String
  movieId : String
  details : MovieDetails
deriving DecidableEq

/-! ### Aggregation (`MovieShowtimesApp._process_theater_shows`) -/

/-- The fresh aggregate created for the first record of a movie name (the
state before the unconditional append/increment):
`movie_id = str(show.get("movieId", ""))`,
`movie_details = movies_data.get(movie_id, {})`,
`released = movie_details.get("released") or show.get("released") or ""`. -/
def seedAgg (s : ShowRecord) (movies_data : List (String × MovieDetails)) : MovieAgg :=
  let movie_id := s.movieId.getD ""
  let movie_details := (lookupA movies_data movie_id).getD ⟨none, []⟩
  { name := s.name
    duration := s.duration
    showtimes_by_date := []
    total_showtimes := 0
    released := pyOr movie_details.released (pyOr s.released "")
    movieId := movie_id
    details := movie_details }

/-- The in-place mutation
`movies[name]["showtimes_by_date"][date].append(show)` and
`movies[name]["total_showtimes"] += 1` on the aggregate dict. -/
def bumpA : List (String × MovieAgg) → String → ShowRecord → List (String × MovieAgg)
  | [], _, _ => []
  | (k, agg) :: rest, name, s =>
    if k = name then
      (k, { agg with
            showtimes_by_date := appendA agg.showtimes_by_date s.date s
            total_showtimes := agg.total_showtimes + 1 }) :: rest
    else (k, agg) :: bumpA rest name s

/-- The body of `_process_theater_shows`'s `for show in shows` loop. -/
def processShow (c : Config) (theater : Theater)
    (movies_data : List (String × MovieDetails))
    (movies : List (String × MovieAgg)) (s : ShowRecord) : List (String × MovieAgg) :=
  if c.should_filter_movie s.name theater then movies
  else
    let movies₂ :=
      match lookupA movies s.name with
      | some _ => movies
      | none => movies ++ [(s.name, seedAgg s movies_data)]
    bumpA movies₂ s.name s

/-- `MovieShowtimesApp._process_theater_shows`. -/
def processTheaterShows (c : Config) (theater : Theater)
    (shows_data : RawTheaterResponse)
    (movies_data : List (String × MovieDetails)) : List (String × MovieAgg) :=
  match shows_data.shows with
  | none => []
  | some shows =>
    if shows = [] then []
    else shows.foldl (processShow c theater movies_data) []

theorem lookupA_bumpA {l : List (String × MovieAgg)} {name : String} {s : ShowRecord} :
    lookupA (bumpA l name s) name =
      (lookupA l name).map (fun agg =>
        { agg with
          showtimes_by_date := appendA agg.showtimes_by_date s.date s
          total_showtimes := agg.total_showtimes + 1 }) := by
  induction l with
  | nil => rfl
  | cons hd tl ih =>
    obtain ⟨k, agg⟩ := hd
    by_cases h : k = name
    · simp [bumpA, lookupA, h]
    · simp [bumpA, lookupA, h, ih]

theorem bumpA_append_fresh (l : List (String × MovieAgg)) (name : String)
    (s : ShowRecord) (agg : MovieAgg) (h : lookupA l name = none) :
    bumpA (l ++ [(name, agg)]) name s =
      l ++ [(name, { agg with
        showtimes_by_date := appendA agg.showtimes_by_date s.date s
        total_showtimes := agg.total_showtimes + 1 })] := by
  induction l with
  | nil => simp [bumpA]
  | cons hd tl ih =>
    obtain ⟨k, w⟩ := hd
    by_cases hk : k = name
    · simp [lookupA, hk] at h
    · simp only [lookupA, if_neg hk] at h
      simp [bumpA, hk, ih h]

theorem lookupA_append_single {β : Type} {l : List (String × β)} {name : String}
    (h : lookupA l name = none) (k : String) (v : β) :
    lookupA (l ++ [(k, v)]) name = if k = name then some v else none := by
  induction l with
  | nil => rfl
  | cons hd tl ih =>
    obtain ⟨k₂, w⟩ := hd
    by_cases hk : k₂ = name
    · simp [lookupA, hk] at h
    · simp only [lookupA, if_neg hk] at h
      simp [lookupA, hk, ih h]

/-- `processShow` never creates an entry for a filtered or different name. -/
theorem lookupA_processShow_of_none (c : Config) (theater : Theater)
    (movies_data : List (String × MovieDetails))
    (movies : List (String × MovieAgg)) (s : ShowRecord) (name : String)
    (hmiss : lookupA movies name = none)
    (hside : c.should_filter_movie name theater = true ∨ s.name ≠ name) :
    lookupA (processShow c theater movies_data movies s) name = none := by
  unfold processShow
  by_cases hfil : c.should_filter_movie s.name theater = true
  · simp [hfil, hmiss]
  · have hne : s.name ≠ name := by
      intro he
      rcases hside with hf | hne₂
      · exact hfil (he ▸ hf)
      · exact hne₂ he
    rw [if_neg hfil]
    have hlb : ∀ l : List (String × MovieAgg), lookupA l name = none →
        lookupA (bumpA l s.name s) name = none := by
      intro l
      induction l with
      | nil => intro _; rfl
      | cons hd tl ih =>
        obtain ⟨k, agg⟩ := hd
        intro hl
        by_cases hk : k = name
        · simp [lookupA, hk] at hl
        · simp only [lookupA, if_neg hk] at hl
          by_cases hks : k = s.name
          · simp [bumpA, hks, lookupA, hks ▸ hk, hl]
          · simp [bumpA, hks, lookupA, hk, ih hl]
    cases hlook : lookupA movies s.name with
    | some agg => exact hlb movies hmiss
    | none =>
      apply hlb
      rw [lookupA_append_single hmiss]
      simp [hne]

/-- A name absent from the running aggregate dict and matched by a filter
stays absent through the whole `for show in shows` loop. -/
theorem lookupA_foldl_processShow_none (c : Config) (theater : Theater)
    (movies_data : List (String × MovieDetails)) (shows : List ShowRecord)
    (movies : List (String × MovieAgg)) (name : String)
    (hmiss : lookupA movies name = none)
    (hf : c.should_filter_movie name theater = true) :
    lookupA (shows.foldl (processShow c theater movies_data) movies) name = none := by
  induction shows generalizing movies with
  | nil => exact hmiss
  | cons s rest ih =>
    simp only [List.foldl_cons]
    exact ih _ (lookupA_processShow_of_none c theater movies_data movies s name hmiss
      (Or.inl hf))

/-- C7: a movie name matched by the global filter pattern is filtered for
every theater (regardless of the per-theater filter) and never appears in any
theater's aggregate; and a first match on either the global or the
theater-specific pattern already suffices to exclude a record. -/
theorem global_filter_excludes_everywhere (c : Config) (name : String) :
    (c.global_filter_regex.elim false (fun p => p name) = true →
      (∀ theater : Theater, c.should_filter_movie name theater = true) ∧
      ∀ (theater : Theater) (resp : RawTheaterResponse)
        (md : List (String × MovieDetails)),
        lookupA (processTheaterShows c theater resp md) name = none) ∧
    (∀ theater : Theater,
      c.global_filter_regex.elim false (fun p => p name) = true ∨
        theater.filter_regex.elim false (fun p => p name) = true →
      c.should_filter_movie name theater = true) := by
  constructor
  · intro hg
    have hfil : ∀ theater : Theater, c.should_filter_movie name theater = true := by
      intro theater
      simp [Config.should_filter_movie, hg]
    refine ⟨hfil, ?_⟩
    intro theater resp md
    unfold processTheaterShows
    cases resp.shows with
    | none => rfl
    | some shows =>
      show lookupA
        (if shows = [] then [] else shows.foldl (processShow c theater md) []) name = none
      by_cases hs : shows = []
      · simp [hs, lookupA]
      · rw [if_neg hs]
        exact lookupA_foldl_processShow_none c theater md shows [] name rfl (hfil theater)
  · intro theater hmatch
    rcases hmatch with hg | ht
    · simp [Config.should_filter_movie, hg]
    · simp only [Config.should_filter_movie, ht]
      by_cases hg : c.global_filter_regex.elim false (fun p => p name) = true
      · simp [hg]
      · simp [hg, ht]

/-- Witness for C7: the global pattern "name contains an S" (a search inside
the name, not an equality test) excludes "Sneak Preview" from a theater that
has no filter of its own; and a theater-only pattern match also suffices. -/
theorem global_filter_excludes_everywhere_witness :
    lookupA
      (processTheaterShows ⟨[], some (fun n => n.toList.contains 'S')⟩
        ⟨"Kino", 3625, true, none⟩
        ⟨some [⟨"Sneak Preview", 100, "2024-01-01", "20:00", [], none, none⟩], none, []⟩
        []) "Sneak Preview" = none ∧
    Config.should_filter_movie ⟨[], some (fun n => n.toList.contains 'S')⟩
      "Sneak Preview" ⟨"Kino", 3625, true, none⟩ = true ∧
    Config.should_filter_movie ⟨[], none⟩
      "Oper im Kino" ⟨"Museum", 1, false, some (fun n => n.toList.contains 'O')⟩ = true := by
  refine ⟨?_, ?_, ?_⟩
  · exact ((global_filter_excludes_everywhere
      ⟨[], some (fun n => n.toList.contains 'S')⟩ "Sneak Preview").1 (by decide)).2 _ _ _
  · exact ((global_filter_excludes_everywhere
      ⟨[], some (fun n => n.toList.contains 'S')⟩ "Sneak Preview").1 (by decide)).1 _
  · exact (global_filter_excludes_everywhere ⟨[], none⟩ "Oper im Kino").2
      ⟨"Museum", 1, false, some (fun n => n.toList.contains 'O')⟩ (Or.inr (by decide))

theorem seedAgg_showtimes_by_date (s : ShowRecord)
    (movies_data : List (String × MovieDetails)) :
    (seedAgg s movies_data).showtimes_by_date = [] := rfl

theorem seedAgg_total_showtimes (s : ShowRecord)
    (movies_data : List (String × MovieDetails)) :
    (seedAgg s movies_data).total_showtimes = 0 := rfl

/-- C4: aggregation groups surviving records by exact movie-name equality.
The first record with a given name seeds the aggregate (duration, movieId,
details, and released — released from the movie-detail lookup if non-empty,
else from the record, else empty — all packaged in `seedAgg`) and enters the
record under its date with a count of 1; every later record with the same name
only appends to `showtimes_by_date[record.date]` and increments
`total_showtimes`, leaving every seeded field unchanged even when its duration
or id differs; in particular two surviving records for the same movie name on
different dates produce exactly one aggregate with `total_showtimes = 2` and
two distinct date groups. -/
theorem aggregation_seeds_and_appends (c : Config) (theater : Theater)
    (md : List (String × MovieDetails)) :
    (∀ (movies : List (String × MovieAgg)) (s : ShowRecord),
      c.should_filter_movie s.name theater = false →
      lookupA movies s.name = none →
      processShow c theater md movies s =
        movies ++ [(s.name, { seedAgg s md with
          showtimes_by_date := [(s.date, [s])], total_showtimes := 1 })]) ∧
    (∀ (movies : List (String × MovieAgg)) (s : ShowRecord) (agg : MovieAgg),
      c.should_filter_movie s.name theater = false →
      lookupA movies s.name = some agg →
      lookupA (processShow c theater md movies s) s.name = some
        { agg with
          showtimes_by_date := appendA agg.showtimes_by_date s.date s
          total_showtimes := agg.total_showtimes + 1 }) ∧
    (∀ s₁ s₂ : ShowRecord,
      s₁.name = s₂.name → s₁.date ≠ s₂.date →
      c.should_filter_movie s₁.name theater = false →
      processTheaterShows c theater ⟨some [s₁, s₂], none, md⟩ md =
        [(s₁.name, { seedAgg s₁ md with
          showtimes_by_date := [(s₁.date, [s₁]), (s₂.date, [s₂])],
          total_showtimes := 2 })]) := by
  have hseed : ∀ (movies : List (String × MovieAgg)) (s : ShowRecord),
      c.should_filter_movie s.name theater = false →
      lookupA movies s.name = none →
      processShow c theater md movies s =
        movies ++ [(s.name, { seedAgg s md with
          showtimes_by_date := [(s.date, [s])], total_showtimes := 1 })] := by
    intro movies s hfil hmiss
    unfold processShow
    rw [if_neg (by simp [hfil]), hmiss]
    rw [bumpA_append_fresh movies s.name s (seedAgg s md) hmiss]
    simp [seedAgg_showtimes_by_date, seedAgg_total_showtimes, appendA]
  have hbump : ∀ (movies : List (String × MovieAgg)) (s : ShowRecord) (agg : MovieAgg),
      c.should_filter_movie s.name theater = false →
      lookupA movies s.name = some agg →
      lookupA (processShow c theater md movies s) s.name = some
        { agg with
          showtimes_by_date := appendA agg.showtimes_by_date s.date s
          total_showtimes := agg.total_showtimes + 1 } := by
    intro movies s agg hfil hhit
    unfold processShow
    rw [if_neg (by simp [hfil]), hhit, lookupA_bumpA, hhit]
    rfl
  refine ⟨hseed, hbump, ?_⟩
  intro s₁ s₂ hname hdate hfil
  have hfil₂ : c.should_filter_movie s₂.name theater = false := hname ▸ hfil
  unfold processTheaterShows
  simp only
  rw [if_neg (by simp)]
  simp only [List.foldl_cons, List.foldl_nil]
  rw [hseed [] s₁ hfil rfl, List.nil_append]
  unfold processShow
  rw [if_neg (by simp [hfil₂])]
  have hlook : lookupA [(s₁.name, { seedAgg s₁ md with
      showtimes_by_date := [(s₁.date, [s₁])], total_showtimes := 1 })] s₂.name =
      some { seedAgg s₁ md with
        showtimes_by_date := [(s₁.date, [s₁])], total_showtimes := 1 } := by
    simp [lookupA, hname]
  rw [hlook]
  simp [bumpA, hname, appendA, hdate]

/-- Witness for C4: two concrete records of the movie "Dune" on different
dates, the second with a different duration and movie id, merge into one
aggregate that keeps the seeded fields and counts 2 showtimes in 2 date
groups. -/
theorem aggregation_seeds_and_appends_witness :
    processTheaterShows ⟨[], none⟩ ⟨"Kino", 3625, true, none⟩
      ⟨some [⟨"Dune", 155, "2024-01-01", "20:00", [], some "7", none⟩,
             ⟨"Dune", 999, "2024-01-02", "18:00", [], some "8", none⟩],
       none, [("7", ⟨some "2024-05-01", []⟩)]⟩
      [("7", ⟨some "2024-05-01", []⟩)] =
    [("Dune",
      { seedAgg ⟨"Dune", 155, "2024-01-01", "20:00", [], some "7", none⟩
          [("7", ⟨some "2024-05-01", []⟩)] with
        showtimes_by_date :=
          [("2024-01-01", [⟨"Dune", 155, "2024-01-01", "20:00", [], some "7", none⟩]),
           ("2024-01-02", [⟨"Dune", 999, "2024-01-02", "18:00", [], some "8", none⟩])],
        total_showtimes := 2 })] :=
  (aggregation_seeds_and_appends ⟨[], none⟩ ⟨"Kino", 3625, true, none⟩
      [("7", ⟨some "2024-05-01", []⟩)]).2.2
    ⟨"Dune", 155, "2024-01-01", "20:00", [], some "7", none⟩
    ⟨"Dune", 999, "2024-01-02", "18:00", [], some "8", none⟩
    rfl (by decide) rfl

/-! ### Theater Fetcher (`MovieShowtimesApp.load_showtimes*`) -/

/-- `MovieShowtimesApp.load_showtimes_for_theater`.  The network is an
explicit argument: `fetch` is the outcome of the HTTP request and JSON parse
for this theater (`.error` when any exception is raised inside the `try`:
network failure, `raise_for_status`, malformed body).  The cache read happens
before the `try`, so a raising `Cache.get` propagates as `.error`.  The result
pairs the returned payload with the cache directory afterwards. -/
def load_showtimes_for_theater (fs : Fs RawTheaterResponse) (now : Int)
    (theater : Theater) (fetch : Except String RawTheaterResponse)
    (writeOk : Bool) : Except String (RawTheaterResponse × Fs RawTheaterResponse) := do
  let (cached, fs₂) ← Cache.get fs now "showtimes" [toString theater.cinema_id]
  match cached with
  | some data => pure (data, fs₂)
  | none =>
    match fetch with
    | .ok data =>
      pure (data, Cache.set fs₂ now "showtimes" data [toString theater.cinema_id] writeOk)
    | .error e => pure (errorPlaceholder e, fs₂)

/-- One entry of `self.theaters_data`. -/
structure TheaterEntry where
  theater : Theater
  shows_data : RawTheaterResponse
  movies_data : List (String × MovieDetails)

/-- `MovieShowtimesApp.load_showtimes`: one concurrent task per theater
(`asyncio.gather` keeps configuration order), every task reading the same
initial cache snapshot; the name-keyed dict `theaters_data` is modelled as the
association list in task order (the configured theater names are taken as
distinct, so the dict-overwrite on a duplicate name does not arise).
`.error` models an exception escaping the gather, which only a task's cache
read can raise. -/
def load_showtimes (fs : Fs RawTheaterResponse) (now : Int) :
    List Theater → (Theater → Except String RawTheaterResponse) → Bool →
    Except String (List (String × TheaterEntry))
  | [], _, _ => .ok []
  | t :: rest, fetchEnv, writeOk => do
    let (data, _) ← load_showtimes_for_theater fs now t (fetchEnv t) writeOk
    let tail ← load_showtimes fs now rest fetchEnv writeOk
    pure ((t.name, ⟨t, data, data.movies⟩) :: tail)

/-- Proof helper: the payload one theater's task produces, assuming its cache
read does not raise. -/
def taskPayload (fs : Fs RawTheaterResponse) (now : Int) (t : Theater)
    (fetch : Except String RawTheaterResponse) : RawTheaterResponse :=
  match Cache.get fs now "showtimes" [toString t.cinema_id] with
  | .ok (some data, _) => data
  | _ =>
    match fetch with
    | .ok data => data
    | .error e => errorPlaceholder e

/-- Proof helper: the `theaters_data` entry one theater's task produces. -/
def taskEntry (fs : Fs RawTheaterResponse) (now : Int) (t : Theater)
    (fetch : Except String RawTheaterResponse) : TheaterEntry :=
  ⟨t, taskPayload fs now t fetch, (taskPayload fs now t fetch).movies⟩

/-- When no theater's cache read raises, the batch returns the entry of every
task, one per theater, in order. -/
theorem load_showtimes_eq_map (fs : Fs RawTheaterResponse) (now : Int)
    (theaters : List Theater) (env : Theater → Except String RawTheaterResponse)
    (writeOk : Bool)
    (h : ∀ s ∈ theaters, ∃ r, Cache.get fs now "showtimes" [toString s.cinema_id] = .ok r) :
    load_showtimes fs now theaters env writeOk =
      .ok (theaters.map (fun s => (s.name, taskEntry fs now s (env s)))) := by
  induction theaters with
  | nil => rfl
  | cons t rest ih =>
    obtain ⟨⟨c, fs₂⟩, hc⟩ := h t (List.mem_cons_self t rest)
    have htail := ih (fun s hs => h s (List.mem_cons_of_mem t hs))
    simp only [load_showtimes, load_showtimes_for_theater, hc, htail, taskEntry, taskPayload,
      List.map_cons]
    cases c with
    | some data => rfl
    | none =>
      cases henv : env t with
      | ok data => rfl
      | error e => rfl

theorem lookupA_taskEntries_self (fs : Fs RawTheaterResponse) (now : Int)
    (theaters : List Theater) (env : Theater → Except String RawTheaterResponse)
    (t : Theater) (hmem : t ∈ theaters)
    (hnodup : (theaters.map Theater.name).Nodup) :
    lookupA (theaters.map (fun s => (s.name, taskEntry fs now s (env s)))) t.name =
      some (taskEntry fs now t (env t)) := by
  induction theaters with
  | nil => cases hmem
  | cons hd rest ih =>
    have hhdnotin : hd.name ∉ rest.map Theater.name := (List.nodup_cons.mp hnodup).1
    rcases List.mem_cons.mp hmem with heq | hm
    · subst heq
      simp [lookupA]
    · have hne : hd.name ≠ t.name := by
        intro h
        exact hhdnotin (h ▸ List.mem_map_of_mem Theater.name hm)
      simp only [List.map_cons, lookupA, if_neg hne]
      exact ih hm (List.nodup_cons.mp hnodup).2

theorem lookupA_taskEntries_congr (fs : Fs RawTheaterResponse) (now : Int)
    (theaters : List Theater) (env env₂ : Theater → Except String RawTheaterResponse)
    (nm : String)
    (h : ∀ u ∈ theaters, u.name = nm → env u = env₂ u) :
    lookupA (theaters.map (fun s => (s.name, taskEntry fs now s (env s)))) nm =
      lookupA (theaters.map (fun s => (s.name, taskEntry fs now s (env₂ s)))) nm := by
  induction theaters with
  | nil => rfl
  | cons hd rest ih =>
    by_cases hhd : hd.name = nm
    · simp only [List.map_cons, lookupA, if_pos hhd,
        h hd (List.mem_cons_self hd rest) hhd]
    · simp only [List.map_cons, lookupA, if_neg hhd]
      exact ih (fun u hu => h u (List.mem_cons_of_mem hd hu))

/-- C2: when one theater's fetch raises (with message `msg`) after a cache
miss, the batch still completes without an exception, that theater's entry is
exactly the error placeholder `{shows: [], error: msg, movies: {}}` with no
movies, and every other theater's entry is exactly what it is under any fetch
environment differing only at the failing theater — e.g. one where that fetch
succeeds. -/
theorem fetch_error_isolated (fs : Fs RawTheaterResponse) (now : Int)
    (theaters : List Theater)
    (fetchEnv fetchEnv₂ : Theater → Except String RawTheaterResponse)
    (writeOk : Bool) (t : Theater) (msg : String)
    (hmem : t ∈ theaters)
    (hnodup : (theaters.map Theater.name).Nodup)
    (hnoraise : ∀ s ∈ theaters,
      ∃ r, Cache.get fs now "showtimes" [toString s.cinema_id] = .ok r)
    (hmiss : ∃ fs₂, Cache.get fs now "showtimes" [toString t.cinema_id] = .ok (none, fs₂))
    (hfail : fetchEnv t = .error msg)
    (hsame : ∀ s : Theater, s.name ≠ t.name → fetchEnv₂ s = fetchEnv s) :
    ∃ l₁ l₂,
      load_showtimes fs now theaters fetchEnv writeOk = .ok l₁ ∧
      load_showtimes fs now theaters fetchEnv₂ writeOk = .ok l₂ ∧
      lookupA l₁ t.name = some ⟨t, errorPlaceholder msg, []⟩ ∧
      ∀ s ∈ theaters, s.name ≠ t.name → lookupA l₁ s.name = lookupA l₂ s.name := by
  refine ⟨_, _, load_showtimes_eq_map fs now theaters fetchEnv writeOk hnoraise,
    load_showtimes_eq_map fs now theaters fetchEnv₂ writeOk hnoraise, ?_, ?_⟩
  · rw [lookupA_taskEntries_self fs now theaters fetchEnv t hmem hnodup]
    obtain ⟨fs₂, hfs₂⟩ := hmiss
    simp only [taskEntry, taskPayload, hfs₂, hfail]
    rfl
  · intro s hs hsn
    apply lookupA_taskEntries_congr
    intro u _ hun
    exact (hsame u (hun ▸ hsn)).symm

/-- Witness for C2: two theaters "A" and "B" over an empty cache; theater B's
fetch fails with "boom" while theater A succeeds; flipping B's environment to
a success leaves A's entry untouched. -/
theorem fetch_error_isolated_witness :
    ∃ l₁ l₂,
      load_showtimes [] 0 [⟨"A", 1, true, none⟩, ⟨"B", 2, false, none⟩]
        (fun s => if s.name = "B" then .error "boom"
                  else .ok ⟨some [], none, []⟩) true = .ok l₁ ∧
      load_showtimes [] 0 [⟨"A", 1, true, none⟩, ⟨"B", 2, false, none⟩]
        (fun _ => .ok ⟨some [], none, []⟩) true = .ok l₂ ∧
      lookupA l₁ (Theater.name ⟨"B", 2, false, none⟩) =
        some ⟨⟨"B", 2, false, none⟩, errorPlaceholder "boom", []⟩ ∧
      ∀ s ∈ [(⟨"A", 1, true, none⟩ : Theater), ⟨"B", 2, false, none⟩],
        s.name ≠ Theater.name ⟨"B", 2, false, none⟩ →
        lookupA l₁ s.name = lookupA l₂ s.name := by
  refine fetch_error_isolated [] 0 _ _ _ true ⟨"B", 2, false, none⟩ "boom"
    (List.mem_cons_of_mem _ (List.mem_cons_self _ _)) (by simp) ?_ ⟨[], rfl⟩ rfl ?_
  · intro s _
    exact ⟨(none, []), rfl⟩
  · intro s hsn
    simp only [if_neg hsn]

/-! ### Python string comparison

Python compares strings lexicographically by code point; the show `date`,
`time` and `released` values are plain zero-padded strings, so this order is
what every `sorted` call below uses.  (`String`'s built-in order does not
reduce in the kernel, hence this executable copy.) -/

/-- Code-point lexicographic "less or equal" on char lists. -/
def charsLe : List Char → List Char → Bool
  | [], _ => true
  | _ :: _, [] => false
  | c :: cs, d :: ds =>
    if c.toNat < d.toNat then true
    else if d.toNat < c.toNat then false
    else charsLe cs ds

/-- Python's `a <= b` on strings. -/
def strLe (a b : String) : Bool :=
  charsLe a.toList b.toList

theorem charsLe_cons_iff (x y : Char) (xs ys : List Char) :
    charsLe (x :: xs) (y :: ys) = true ↔
      x.toNat < y.toNat ∨ (x.toNat = y.toNat ∧ charsLe xs ys = true) := by
  simp only [charsLe]
  by_cases h₁ : x.toNat < y.toNat
  · simp [h₁]
  · by_cases h₂ : y.toNat < x.toNat
    · simp only [if_neg h₁, if_pos h₂]
      constructor
      · intro h
        exact absurd h (by simp)
      · rintro (h | ⟨h, _⟩) <;> omega
    · have he : x.toNat = y.toNat := by omega
      simp [h₁, h₂, he]

theorem charsLe_total : ∀ a b : List Char, charsLe a b = true ∨ charsLe b a = true
  | [], _ => Or.inl rfl
  | _ :: _, [] => Or.inr rfl
  | x :: xs, y :: ys => by
    rcases Nat.lt_trichotomy x.toNat y.toNat with h | h | h
    · exact Or.inl ((charsLe_cons_iff x y xs ys).mpr (Or.inl h))
    · rcases charsLe_total xs ys with hx | hx
      · exact Or.inl ((charsLe_cons_iff x y xs ys).mpr (Or.inr ⟨h, hx⟩))
      · exact Or.inr ((charsLe_cons_iff y x ys xs).mpr (Or.inr ⟨h.symm, hx⟩))
    · exact Or.inr ((charsLe_cons_iff y x ys xs).mpr (Or.inl h))

theorem charsLe_trans : ∀ {a b c : List Char},
    charsLe a b = true → charsLe b c = true → charsLe a c = true
  | [], _, _, _, _ => rfl
  | _ :: _, [], _, hab, _ => by simp [charsLe] at hab
  | _ :: _, _ :: _, [], _, hbc => by simp [charsLe] at hbc
  | x :: xs, y :: ys, z :: zs, hab, hbc => by
    rcases (charsLe_cons_iff x y xs ys).mp hab with h₁ | ⟨h₁, hr₁⟩ <;>
      rcases (charsLe_cons_iff y z ys zs).mp hbc with h₂ | ⟨h₂, hr₂⟩
    · exact (charsLe_cons_iff x z xs zs).mpr (Or.inl (by omega))
    · exact (charsLe_cons_iff x z xs zs).mpr (Or.inl (by omega))
    · exact (charsLe_cons_iff x z xs zs).mpr (Or.inl (by omega))
    · exact (charsLe_cons_iff x z xs zs).mpr
        (Or.inr ⟨by omega, charsLe_trans hr₁ hr₂⟩)

theorem charsLe_antisymm : ∀ {a b : List Char},
    charsLe a b = true → charsLe b a = true → a = b
  | [], [], _, _ => rfl
  | [], _ :: _, _, hba => by simp [charsLe] at hba
  | _ :: _, [], hab, _ => by simp [charsLe] at hab
  | x :: xs, y :: ys, hab, hba => by
    rcases (charsLe_cons_iff x y xs ys).mp hab with h₁ | ⟨h₁, hr₁⟩ <;>
      rcases (charsLe_cons_iff y x ys xs).mp hba with h₂ | ⟨h₂, hr₂⟩
    · omega
    · omega
    · omega
    · have hxy : x = y := Char.ext (UInt32.ext h₁)
      rw [hxy, charsLe_antisymm hr₁ hr₂]

theorem toList_injective {a b : String} (h : a.toList = b.toList) : a = b := by
  cases a
  cases b
  exact congrArg String.mk h

theorem strLe_total (a b : String) : strLe a b = true ∨ strLe b a = true :=
  charsLe_total a.toList b.toList

theorem strLe_trans {a b c : String} (hab : strLe a b = true) (hbc : strLe b c = true) :
    strLe a c = true :=
  charsLe_trans hab hbc

theorem strLe_antisymm {a b : String} (hab : strLe a b = true) (hba : strLe b a = true) :
    a = b :=
  toList_injective (charsLe_antisymm hab hba)

theorem eq_empty_of_strLe_empty {s : String} (h : strLe s "" = true) : s = "" :=
  strLe_antisymm h rfl

/-! ### Sorting (`sorted(..., key=..., reverse=True)`) -/

/-- `value or ""` on a string that is already defaulted: written as in the
source (`x[1]["released"] or ""`), it is the identity. -/
def orEmpty (s : String) : String :=
  if s = "" then "" else s

theorem orEmpty_eq (s : String) : orEmpty s = s := by
  unfold orEmpty
  split <;> simp_all

/-- Descending popularity order on aggregate dict items
(`key=lambda x: x[1]["total_showtimes"], reverse=True`). -/
def popGe (a b : String × MovieAgg) : Prop :=
  b.2.total_showtimes ≤ a.2.total_showtimes

/-- Descending release order on aggregate dict items
(`key=lambda x: x[1]["released"] or "", reverse=True`). -/
def relGe (a b : String × MovieAgg) : Prop :=
  strLe (orEmpty b.2.released) (orEmpty a.2.released) = true

instance : DecidableRel popGe :=
  fun a b => Nat.decLe b.2.total_showtimes a.2.total_showtimes

instance : DecidableRel relGe :=
  fun a b => instDecidableEqBool (strLe (orEmpty b.2.released) (orEmpty a.2.released)) true

instance : IsTotal (String × MovieAgg) popGe :=
  ⟨fun a b => Nat.le_total b.2.total_showtimes a.2.total_showtimes⟩

instance : IsTrans (String × MovieAgg) popGe :=
  ⟨fun _ _ _ h₁ h₂ => Nat.le_trans h₂ h₁⟩

instance : IsTotal (String × MovieAgg) relGe :=
  ⟨fun a b => strLe_total (orEmpty b.2.released) (orEmpty a.2.released)⟩

instance : IsTrans (String × MovieAgg) relGe :=
  ⟨fun _ _ _ h₁ h₂ => strLe_trans h₂ h₁⟩

/-- The two `sorted(movies.items(), key=..., reverse=True)` calls of
`_render_by_theater`.  Python's sort is stable and `reverse=True` keeps ties
in input order, which is exactly the stable `insertionSort` under the
descending-key relation (a stable sort for a fixed total preorder is unique,
so the model and timsort agree on every input). -/
def sortMovies (sortByRelease : Bool) (movies : List (String × MovieAgg)) :
    List (String × MovieAgg) :=
  if sortByRelease then movies.insertionSort relGe
  else movies.insertionSort popGe

/-! ### Rendering by theater (`MovieShowtimesApp._render_by_theater`) -/

/-- One widget mounted into the scroll container. -/
inductive RenderItem where
  | theaterHeader (name : String)
  | label (msg : String)
  | movieTable (displayName : String) (duration : Int)
      (showtimes_by_date : List (String × List ShowRecord)) (movie_data : MovieAgg)
deriving DecidableEq

/-- One iteration of `_render_by_theater`'s loop over `theaters_data.items()`:
the widgets mounted for one theater.  `shows = none` models
`not shows_data or "shows" not in shows_data` (an empty dict has no `"shows"`
key either), and the error line is appended exactly when the payload carries
an `"error"` key (an empty dict cannot). -/
def renderTheaterSection (c : Config) (sortByRelease : Bool)
    (name : String) (entry : TheaterEntry) : List RenderItem :=
  RenderItem.theaterHeader name ::
    (match entry.shows_data.shows with
     | none =>
       [RenderItem.label ("No showtimes available." ++
         (match entry.shows_data.error with
          | some e => "\nError: " ++ e
          | none => ""))]
     | some _ =>
       let movies := processTheaterShows c entry.theater entry.shows_data entry.movies_data
       if movies = [] then [RenderItem.label "No showtimes available."]
       else (sortMovies sortByRelease movies).map (fun nm =>
         RenderItem.movieTable nm.1 nm.2.duration nm.2.showtimes_by_date nm.2))

/-- `MovieShowtimesApp._render_by_theater`: the widget sequence mounted for
the whole `theaters_data` dict, in insertion (= configuration) order. -/
def renderByTheater (c : Config) (sortByRelease : Bool)
    (theatersData : List (String × TheaterEntry)) : List RenderItem :=
  theatersData.flatMap (fun e => renderTheaterSection c sortByRelease e.1 e.2)

/-- C3: evaluated at the failing input — a theater whose fetch failed with
message "boom", so its stored response is the placeholder
`{shows: [], error: "boom", movies: {}}` — `_render_by_theater` mounts only
the plain "No showtimes available." label and never the error text: the
placeholder carries a `"shows"` key, so the branch that would append
`"\nError: boom"` is unreachable for it, and the rendering is byte-identical
to that of a theater with a legitimately empty show list (second conjunct):
the explicit fetch error is not reported and not distinguishable. -/
theorem render_error_placeholder_indistinguishable :
    renderByTheater ⟨[], none⟩ false
        [("T", ⟨⟨"T", 1, true, none⟩, errorPlaceholder "boom", []⟩)] =
      [RenderItem.theaterHeader "T", RenderItem.label "No showtimes available."] ∧
    renderByTheater ⟨[], none⟩ false
        [("T", ⟨⟨"T", 1, true, none⟩, ⟨some [], none, []⟩, []⟩)] =
      [RenderItem.theaterHeader "T", RenderItem.label "No showtimes available."] :=
  ⟨rfl, rfl⟩

/-- C6: in popularity mode one theater's aggregates are ordered descending by
`total_showtimes`, in release mode descending by `released`, each a
permutation of the input; and under the release order an empty/unknown
`released` is the least value, so every aggregate placed after one with an
empty `released` also has an empty `released` — empties sort last. -/
theorem sort_movies_orders (movies : List (String × MovieAgg)) :
    (sortMovies false movies).Pairwise popGe ∧
    (sortMovies false movies).Perm movies ∧
    (sortMovies true movies).Pairwise relGe ∧
    (sortMovies true movies).Perm movies ∧
    (sortMovies true movies).Pairwise
      (fun a b => a.2.released = "" → b.2.released = "") := by
  refine ⟨?_, ?_, ?_, ?_, ?_⟩
  · simpa [sortMovies] using List.sorted_insertionSort popGe movies
  · simpa [sortMovies] using List.perm_insertionSort popGe movies
  · simpa [sortMovies] using List.sorted_insertionSort relGe movies
  · simpa [sortMovies] using List.perm_insertionSort relGe movies
  · have h : (sortMovies true movies).Pairwise relGe := by
      simpa [sortMovies] using List.sorted_insertionSort relGe movies
    refine h.imp ?_
    intro a b hab hae
    unfold relGe at hab
    rw [orEmpty_eq, orEmpty_eq, hae] at hab
    exact eq_empty_of_strLe_empty hab

/-! ### Rendering by movie (`MovieShowtimesApp._render_by_movie`) -/

/-- The `all_movies` defaultdict of `_render_by_movie`: iterate
`theaters_data` in insertion order, process each theater's shows, and append
`(theater_name, theater, movie_data)` under the movie name. -/
def allMovies (c : Config) (theatersData : List (String × TheaterEntry)) :
    List (String × List (String × Theater × MovieAgg)) :=
  theatersData.foldl
    (fun all e =>
      (processTheaterShows c e.2.theater e.2.shows_data e.2.movies_data).foldl
        (fun all₂ nm => appendA all₂ nm.1 (e.1, e.2.theater, nm.2)) all)
    []

/-- Popularity key in by-movie mode: the sum of `total_showtimes` across all
theaters showing the movie. -/
def sumShowtimes (l : List (String × Theater × MovieAgg)) : Nat :=
  (l.map (fun d => d.2.2.total_showtimes)).sum

/-- The binary maximum under Python string comparison. -/
def strMax (a b : String) : String :=
  if strLe a b = true then b else a

/-- Release key in by-movie mode:
`max((data[2]["released"] or "" for data in all_movies[name]), default="")`,
written as a fold from the bottom element `""`. -/
def maxReleased (l : List (String × Theater × MovieAgg)) : String :=
  (l.map (fun d => orEmpty d.2.2.released)).foldl strMax ""

/-- Descending by-movie popularity order on `all_movies` items. -/
def byMoviePopGe (a b : String × List (String × Theater × MovieAgg)) : Prop :=
  sumShowtimes b.2 ≤ sumShowtimes a.2

/-- Descending by-movie release order on `all_movies` items. -/
def byMovieRelGe (a b : String × List (String × Theater × MovieAgg)) : Prop :=
  strLe (maxReleased b.2) (maxReleased a.2) = true

/-- Alphabetical order on a movie's per-theater tuples
(`theaters_for_movie.sort(key=lambda x: x[0])`). -/
def theaterAlphaLe (a b : String × Theater × MovieAgg) : Prop :=
  strLe a.1 b.1 = true

instance : DecidableRel byMoviePopGe :=
  fun a b => Nat.decLe (sumShowtimes b.2) (sumShowtimes a.2)

instance : DecidableRel byMovieRelGe :=
  fun a b => instDecidableEqBool (strLe (maxReleased b.2) (maxReleased a.2)) true

instance : DecidableRel theaterAlphaLe :=
  fun a b => instDecidableEqBool (strLe a.1 b.1) true

instance : IsTotal (String × List (String × Theater × MovieAgg)) byMoviePopGe :=
  ⟨fun a b => Nat.le_total (sumShowtimes b.2) (sumShowtimes a.2)⟩

instance : IsTrans (String × List (String × Theater × MovieAgg)) byMoviePopGe :=
  ⟨fun _ _ _ h₁ h₂ => Nat.le_trans h₂ h₁⟩

instance : IsTotal (String × List (String × Theater × MovieAgg)) byMovieRelGe :=
  ⟨fun a b => strLe_total (maxReleased b.2) (maxReleased a.2)⟩

instance : IsTrans (String × List (String × Theater × MovieAgg)) byMovieRelGe :=
  ⟨fun _ _ _ h₁ h₂ => strLe_trans h₂ h₁⟩

instance : IsTotal (String × Theater × MovieAgg) theaterAlphaLe :=
  ⟨fun a b => strLe_total a.1 b.1⟩

instance : IsTrans (String × Theater × MovieAgg) theaterAlphaLe :=
  ⟨fun _ _ _ h₁ h₂ => strLe_trans h₁ h₂⟩

/-- `_render_by_movie`'s ordered structure: the `all_movies` items sorted by
the active combined key (descending, stable), each entry's theater list then
sorted alphabetically by theater name.  The source stably sorts the (distinct)
movie names under a key looked up in `all_movies` and then walks the names;
since `all_movies` holds exactly one item per name, in name order, this equals
stably sorting the items themselves under the same key. -/
def byMovieEntries (c : Config) (sortByRelease : Bool)
    (theatersData : List (String × TheaterEntry)) :
    List (String × List (String × Theater × MovieAgg)) :=
  let all := allMovies c theatersData
  let sortedAll :=
    if sortByRelease then all.insertionSort byMovieRelGe
    else all.insertionSort byMoviePopGe
  sortedAll.map (fun e => (e.1, e.2.insertionSort theaterAlphaLe))

/-- `MovieShowtimesApp._render_by_movie`: the widget sequence
(`display_name = f"{movie_name} [{theater_name}]"`). -/
def renderByMovie (c : Config) (sortByRelease : Bool)
    (theatersData : List (String × TheaterEntry)) : List RenderItem :=
  let entries := byMovieEntries c sortByRelease theatersData
  if entries.isEmpty then [RenderItem.label "No showtimes available."]
  else entries.flatMap (fun e =>
    e.2.map (fun d =>
      RenderItem.movieTable (e.1 ++ " [" ++ d.1 ++ "]") d.2.2.duration
        d.2.2.showtimes_by_date d.2.2))

/-! ### Multimap lemmas for `all_movies` -/

theorem lookupA_appendA {β : Type} (all : List (String × List β)) (k key : String) (v : β) :
    lookupA (appendA all k v) key =
      if k = key then some ((lookupA all key).getD [] ++ [v]) else lookupA all key := by
  induction all with
  | nil => by_cases h : k = key <;> simp [appendA, lookupA, h]
  | cons hd tl ih =>
    obtain ⟨k₂, l⟩ := hd
    by_cases h₂ : k₂ = k
    · subst h₂
      by_cases h : k₂ = key <;> simp [appendA, lookupA, h]
    · by_cases h : k₂ = key
      · subst h
        have hne : k ≠ k₂ := fun he => h₂ he.symm
        simp [appendA, h₂, lookupA, hne]
      · simp [appendA, h₂, lookupA, h, ih]

theorem lookupA_eq_none_iff {β : Type} (l : List (String × β)) (key : String) :
    lookupA l key = none ↔ key ∉ l.map Prod.fst := by
  induction l with
  | nil => simp [lookupA]
  | cons hd tl ih =>
    obtain ⟨k, v⟩ := hd
    by_cases h : k = key
    · simp [lookupA, h]
    · have hne : key ≠ k := fun he => h he.symm
      simp [lookupA, h, ih, hne]

theorem keys_appendA {β : Type} (all : List (String × List β)) (k : String) (v : β) :
    (appendA all k v).map Prod.fst =
      if (lookupA all k).isNone then all.map Prod.fst ++ [k] else all.map Prod.fst := by
  induction all with
  | nil => simp [appendA, lookupA]
  | cons hd tl ih =>
    obtain ⟨k₂, l⟩ := hd
    by_cases h : k₂ = k
    · subst h
      simp [appendA, lookupA]
    · simp only [appendA, if_neg h, List.map_cons, ih, lookupA, if_neg h]
      by_cases h₂ : (lookupA tl k).isNone
      · simp [h₂]
      · simp [h₂]

theorem nodup_keys_appendA {β : Type} (all : List (String × List β)) (k : String) (v : β)
    (h : (all.map Prod.fst).Nodup) : ((appendA all k v).map Prod.fst).Nodup := by
  rw [keys_appendA]
  by_cases hl : (lookupA all k).isNone
  · rw [if_pos hl]
    have hk : k ∉ all.map Prod.fst :=
      (lookupA_eq_none_iff all k).mp (Option.isNone_iff_eq_none.mp hl)
    rw [List.nodup_append]
    refine ⟨h, List.nodup_singleton k, ?_⟩
    intro a ha hb
    rw [List.mem_singleton] at hb
    exact hk (hb ▸ ha)
  · rw [if_neg hl]
    exact h

theorem lookupA_mem {β : Type} {l : List (String × β)} {key : String} {v : β}
    (h : lookupA l key = some v) : (key, v) ∈ l := by
  induction l with
  | nil => cases h
  | cons hd tl ih =>
    obtain ⟨k, w⟩ := hd
    by_cases hk : k = key
    · subst hk
      simp [lookupA] at h
      simp [h]
    · simp only [lookupA, if_neg hk] at h
      exact List.mem_cons_of_mem _ (ih h)

theorem lookupA_appendA_self_mem {β : Type} (all : List (String × List β)) (k : String)
    (v : β) : ∃ l, lookupA (appendA all k v) k = some l ∧ v ∈ l := by
  refine ⟨(lookupA all k).getD [] ++ [v], ?_, by simp⟩
  rw [lookupA_appendA]
  simp

theorem lookupA_appendA_mono {β : Type} (all : List (String × List β)) (k n : String)
    (v w : β) (h : ∃ l, lookupA all n = some l ∧ w ∈ l) :
    ∃ l, lookupA (appendA all k v) n = some l ∧ w ∈ l := by
  obtain ⟨l, hl, hw⟩ := h
  rw [lookupA_appendA]
  by_cases hk : k = n
  · subst hk
    exact ⟨l ++ [v], by simp [hl], List.mem_append_left _ hw⟩
  · exact ⟨l, by simp [hk, hl], hw⟩

theorem foldl_appendA_mono {β : Type} (items : List (String × MovieAgg))
    (f : String × MovieAgg → β) (all : List (String × List β)) (n : String) (w : β)
    (h : ∃ l, lookupA all n = some l ∧ w ∈ l) :
    ∃ l, lookupA (items.foldl (fun acc nm => appendA acc nm.1 (f nm)) all) n = some l ∧
      w ∈ l := by
  induction items generalizing all with
  | nil => exact h
  | cons nm rest ih => exact ih _ (lookupA_appendA_mono _ _ _ _ _ h)

theorem foldl_appendA_complete {β : Type} (items : List (String × MovieAgg))
    (f : String × MovieAgg → β) (all : List (String × List β))
    (nm : String × MovieAgg) (hmem : nm ∈ items) :
    ∃ l, lookupA (items.foldl (fun acc nm₂ => appendA acc nm₂.1 (f nm₂)) all) nm.1 =
      some l ∧ f nm ∈ l := by
  induction items generalizing all with
  | nil => cases hmem
  | cons nm₀ rest ih =>
    rcases List.mem_cons.mp hmem with he | hm
    · subst he
      exact foldl_appendA_mono rest f _ nm.1 (f nm)
        (lookupA_appendA_self_mem all nm.1 (f nm))
    · exact ih _ hm

theorem nodup_keys_foldl_appendA {β : Type} (items : List (String × MovieAgg))
    (f : String × MovieAgg → β) (all : List (String × List β))
    (h : (all.map Prod.fst).Nodup) :
    ((items.foldl (fun acc nm => appendA acc nm.1 (f nm)) all).map Prod.fst).Nodup := by
  induction items generalizing all with
  | nil => exact h
  | cons nm rest ih => exact ih _ (nodup_keys_appendA all nm.1 (f nm) h)

theorem outer_foldl_mono (c : Config) (rest : List (String × TheaterEntry))
    (all : List (String × List (String × Theater × MovieAgg))) (n : String)
    (w : String × Theater × MovieAgg)
    (h : ∃ l, lookupA all n = some l ∧ w ∈ l) :
    ∃ l, lookupA
      (rest.foldl
        (fun all₂ e₂ =>
          (processTheaterShows c e₂.2.theater e₂.2.shows_data e₂.2.movies_data).foldl
            (fun acc nm₂ => appendA acc nm₂.1 (e₂.1, e₂.2.theater, nm₂.2)) all₂)
        all) n = some l ∧ w ∈ l := by
  induction rest generalizing all with
  | nil => exact h
  | cons e₀ r ih => exact ih _ (foldl_appendA_mono _ _ _ _ _ h)

theorem nodup_keys_allMovies (c : Config) (td : List (String × TheaterEntry)) :
    ((allMovies c td).map Prod.fst).Nodup := by
  unfold allMovies
  suffices hgen : ∀ (td₂ : List (String × TheaterEntry))
      (all : List (String × List (String × Theater × MovieAgg))),
      (all.map Prod.fst).Nodup →
      ((td₂.foldl
        (fun all₂ e₂ =>
          (processTheaterShows c e₂.2.theater e₂.2.shows_data e₂.2.movies_data).foldl
            (fun acc nm₂ => appendA acc nm₂.1 (e₂.1, e₂.2.theater, nm₂.2)) all₂)
        all).map Prod.fst).Nodup by
    exact hgen td [] (by simp)
  intro td₂
  induction td₂ with
  | nil => exact fun all h => h
  | cons e₀ rest ih =>
    intro all h
    exact ih _ (nodup_keys_foldl_appendA _ _ all h)

theorem allMovies_complete (c : Config) (td : List (String × TheaterEntry))
    (e : String × TheaterEntry) (he : e ∈ td) (nm : String × MovieAgg)
    (hnm : nm ∈ processTheaterShows c e.2.theater e.2.shows_data e.2.movies_data) :
    ∃ l, lookupA (allMovies c td) nm.1 = some l ∧ (e.1, e.2.theater, nm.2) ∈ l := by
  unfold allMovies
  suffices hgen : ∀ (td₂ : List (String × TheaterEntry))
      (all : List (String × List (String × Theater × MovieAgg))),
      e ∈ td₂ →
      ∃ l, lookupA
        (td₂.foldl
          (fun all₂ e₂ =>
            (processTheaterShows c e₂.2.theater e₂.2.shows_data e₂.2.movies_data).foldl
              (fun acc nm₂ => appendA acc nm₂.1 (e₂.1, e₂.2.theater, nm₂.2)) all₂)
          all) nm.1 = some l ∧ (e.1, e.2.theater, nm.2) ∈ l by
    exact hgen td [] he
  intro td₂
  induction td₂ with
  | nil => exact fun all h => absurd h (List.not_mem_nil e)
  | cons e₀ rest ih =>
    intro all hmem
    rcases List.mem_cons.mp hmem with he₀ | hm
    · subst he₀
      simp only [List.foldl_cons]
      exact outer_foldl_mono c rest _ nm.1 (e.1, e.2.theater, nm.2)
        (foldl_appendA_complete _ (fun nm₂ => (e.1, e.2.theater, nm₂.2)) all nm hnm)
    · simp only [List.foldl_cons]
      exact ih _ hm

/-! ### Permutation invariance of the by-movie sort keys -/

theorem strMax_comm (a b : String) : strMax a b = strMax b a := by
  unfold strMax
  by_cases h₁ : strLe a b = true <;> by_cases h₂ : strLe b a = true
  · simp [h₁, h₂, strLe_antisymm h₁ h₂]
  · simp [h₁, h₂]
  · simp [h₁, h₂]
  · rcases strLe_total a b with h | h
    · exact absurd h h₁
    · exact absurd h h₂

theorem strMax_assoc (a b c : String) : strMax (strMax a b) c = strMax a (strMax b c) := by
  unfold strMax
  by_cases hab : strLe a b = true <;> by_cases hbc : strLe b c = true
  · simp [hab, hbc, strLe_trans hab hbc]
  · simp [hab, hbc]
  · simp [hab, hbc]
  · have hba : strLe b a = true := (strLe_total a b).resolve_left hab
    have hcb : strLe c b = true := (strLe_total b c).resolve_left hbc
    have hca : strLe c a = true := strLe_trans hcb hba
    by_cases hac : strLe a c = true
    · exact absurd ((strLe_antisymm hac hca) ▸ hba) hbc
    · simp [hab, hbc, hac]

instance : RightCommutative strMax :=
  ⟨fun a b₁ b₂ => by rw [strMax_assoc, strMax_assoc, strMax_comm b₁ b₂]⟩

theorem sumShowtimes_perm {l₁ l₂ : List (String × Theater × MovieAgg)}
    (h : l₁.Perm l₂) : sumShowtimes l₁ = sumShowtimes l₂ := by
  unfold sumShowtimes
  exact (h.map _).sum_eq

theorem maxReleased_perm {l₁ l₂ : List (String × Theater × MovieAgg)}
    (h : l₁.Perm l₂) : maxReleased l₁ = maxReleased l₂ := by
  unfold maxReleased
  exact List.Perm.foldl_eq (h.map _) ""

theorem byMovieEntries_false (c : Config) (td : List (String × TheaterEntry)) :
    byMovieEntries c false td =
      ((allMovies c td).insertionSort byMoviePopGe).map
        (fun e => (e.1, e.2.insertionSort theaterAlphaLe)) := rfl

theorem byMovieEntries_true (c : Config) (td : List (String × TheaterEntry)) :
    byMovieEntries c true td =
      ((allMovies c td).insertionSort byMovieRelGe).map
        (fun e => (e.1, e.2.insertionSort theaterAlphaLe)) := rfl

/-- C5: in by-movie mode the aggregates of all theaters showing a movie are
collected under one combined entry for that movie name — the entry names are
pairwise distinct, and every theater's aggregate for a movie name belongs to
that name's entry; within an entry the per-theater tuples are ordered
alphabetically by theater name; and the movie entries are ordered descending
by the active combined key: the sum of `total_showtimes` across the entry's
theaters in popularity mode, the maximum `released` value in release mode. -/
theorem by_movie_grouping (c : Config) (td : List (String × TheaterEntry)) :
    (∀ b : Bool, ((byMovieEntries c b td).map Prod.fst).Nodup) ∧
    (∀ b : Bool, ∀ e ∈ td,
      ∀ nm ∈ processTheaterShows c e.2.theater e.2.shows_data e.2.movies_data,
      ∃ en ∈ byMovieEntries c b td,
        en.1 = nm.1 ∧ (e.1, e.2.theater, nm.2) ∈ en.2) ∧
    (∀ b : Bool, ∀ en ∈ byMovieEntries c b td, en.2.Pairwise theaterAlphaLe) ∧
    (byMovieEntries c false td).Pairwise byMoviePopGe ∧
    (byMovieEntries c true td).Pairwise byMovieRelGe := by
  have hfstmap : ∀ l : List (String × List (String × Theater × MovieAgg)),
      (l.map (fun e => (e.1, e.2.insertionSort theaterAlphaLe))).map Prod.fst =
        l.map Prod.fst := by
    intro l
    rw [List.map_map]
    rfl
  refine ⟨?_, ?_, ?_, ?_, ?_⟩
  · intro b
    cases b
    · rw [byMovieEntries_false, hfstmap]
      exact ((List.perm_insertionSort byMoviePopGe (allMovies c td)).symm.map
        Prod.fst).nodup (nodup_keys_allMovies c td)
    · rw [byMovieEntries_true, hfstmap]
      exact ((List.perm_insertionSort byMovieRelGe (allMovies c td)).symm.map
        Prod.fst).nodup (nodup_keys_allMovies c td)
  · intro b e he nm hnm
    obtain ⟨l, hl, hv⟩ := allMovies_complete c td e he nm hnm
    have hmem_all : (nm.1, l) ∈ allMovies c td := lookupA_mem hl
    refine ⟨(nm.1, l.insertionSort theaterAlphaLe), ?_, rfl,
      (List.mem_insertionSort theaterAlphaLe).mpr hv⟩
    cases b
    · rw [byMovieEntries_false]
      exact List.mem_map_of_mem _
        ((List.mem_insertionSort byMoviePopGe).mpr hmem_all)
    · rw [byMovieEntries_true]
      exact List.mem_map_of_mem _
        ((List.mem_insertionSort byMovieRelGe).mpr hmem_all)
  · intro b en hen
    have hmem : en ∈ (if b then (allMovies c td).insertionSort byMovieRelGe
        else (allMovies c td).insertionSort byMoviePopGe).map
          (fun e => (e.1, e.2.insertionSort theaterAlphaLe)) := by
      cases b
      · simpa [byMovieEntries_false] using hen
      · simpa [byMovieEntries_true] using hen
    obtain ⟨e, _, rfl⟩ := List.mem_map.mp hmem
    exact List.sorted_insertionSort theaterAlphaLe e.2
  · rw [byMovieEntries_false]
    refine List.Pairwise.map _ ?_
      (List.sorted_insertionSort byMoviePopGe (allMovies c td))
    intro a b hab
    unfold byMoviePopGe at hab ⊢
    rwa [sumShowtimes_perm (List.perm_insertionSort theaterAlphaLe a.2),
      sumShowtimes_perm (List.perm_insertionSort theaterAlphaLe b.2)]
  · rw [byMovieEntries_true]
    refine List.Pairwise.map _ ?_
      (List.sorted_insertionSort byMovieRelGe (allMovies c td))
    intro a b hab
    unfold byMovieRelGe at hab ⊢
    rwa [maxReleased_perm (List.perm_insertionSort theaterAlphaLe a.2),
      maxReleased_perm (List.perm_insertionSort theaterAlphaLe b.2)]

/-- Concrete two-theater input for the C5 witness: both theaters show
"Dune" once, with the one named "B Kino" configured first. -/
def thBExample : Theater := ⟨"B Kino", 1, true, none⟩

def thAExample : Theater := ⟨"A Kino", 2, false, none⟩

def showDuneB : ShowRecord := ⟨"Dune", 155, "2024-01-01", "20:00", [], none, none⟩

def showDuneA : ShowRecord := ⟨"Dune", 155, "2024-01-02", "18:00", [], none, none⟩

def entryBExample : String × TheaterEntry :=
  ("B Kino", ⟨thBExample, ⟨some [showDuneB], none, []⟩, []⟩)

def entryAExample : String × TheaterEntry :=
  ("A Kino", ⟨thAExample, ⟨some [showDuneA], none, []⟩, []⟩)

def tdExample : List (String × TheaterEntry) := [entryBExample, entryAExample]

/-- The aggregate "B Kino" produces for "Dune" on the example input. -/
def aggDuneB : MovieAgg :=
  ⟨"Dune", 155, [("2024-01-01", [showDuneB])], 1, "", "", ⟨none, []⟩⟩

/-- Witness for C5 at the concrete two-theater input. -/
theorem by_movie_grouping_witness :
    ((byMovieEntries ⟨[], none⟩ false tdExample).map Prod.fst).Nodup ∧
    (byMovieEntries ⟨[], none⟩ false tdExample).Pairwise byMoviePopGe ∧
    (byMovieEntries ⟨[], none⟩ true tdExample).Pairwise byMovieRelGe ∧
    ∃ en ∈ byMovieEntries ⟨[], none⟩ false tdExample,
      en.1 = "Dune" ∧ ("B Kino", thBExample, aggDuneB) ∈ en.2 := by
  have h := by_movie_grouping ⟨[], none⟩ tdExample
  refine ⟨h.1 false, h.2.2.2.1, h.2.2.2.2, ?_⟩
  exact h.2.1 false entryBExample (List.mem_cons_self _ _) ("Dune", aggDuneB) (by decide)

end Kinostar
